import Mathlib

/-!
Shallow embedding of the RIFF/WAVE reader in `src/packages/cli/index.js`.

The JavaScript core is a `StreamingBuffer` class (a byte buffer plus a
mutable position) and a chunk decoder (`readFile`, `readChunk`,
`readFmtChunk`, `readFactChunk`, `readDataChunk`) together with a
module-level mutable variable `let fmtChunk = undefined`.

Modelling conventions:
* A Node `Buffer` is a `List Nat` of bytes (each `< 256` in a real buffer;
  the bounds are not needed by the theorems below and are not imposed).
* The position is an `Int`: the source's `advance` adds its argument to the
  position with no bounds check, and chunk sizes are produced by
  `Buffer.readInt32LE`, which is signed, so the position is not a priori a
  natural number.
* JavaScript exceptions are the `JsError` type: Node buffer reads with an
  out-of-range offset throw `ERR_OUT_OF_RANGE` before touching memory or
  the position (`outOfRange`); a property access on `undefined` throws a
  `TypeError` (`typeError`); the `StreamingBuffer.readChunk` method throws
  the string "Not implemented yet" (`notImplemented`).
* Strings built with `String.fromCharCode` are lists of character codes
  (`List Nat`).
* The module-level variable `fmtChunk` is threaded explicitly: decoding
  functions take its current value (`Option ChunkRec`, `none` standing for
  `undefined`) and `readFileDecode` returns the value it leaves behind.
* The derived values of `readDataChunk` use exact rational division
  (`Option ℚ`), with `none` standing for the non-finite JavaScript results
  (`NaN` from dividing by `undefined`, `±Infinity`/`NaN` from dividing by
  zero); floating-point rounding of finite quotients is idealized away, and
  no theorem below depends on these numeric values.
-/

/-- Errors thrown by the JavaScript code: Node's `ERR_OUT_OF_RANGE` from a
buffer read at an out-of-range offset, a `TypeError` from a property access
on `undefined`, and the literal string thrown by the unimplemented
`StreamingBuffer.readChunk` method. -/
inductive JsError where
  | outOfRange
  | typeError
  | notImplemented
  deriving DecidableEq, Repr

/-- The `StreamingBuffer` class: a byte buffer and a current position.
The constructor sets the position to `0`. -/
structure StreamingBuffer where
  buffer : List Nat
  position : Int
  deriving DecidableEq, Repr

/-- `reset()`: sets the position back to `0`. -/
def StreamingBuffer.reset (sb : StreamingBuffer) : StreamingBuffer :=
  { sb with position := 0 }

/-- `advance(amount)`: `this._position += amount`, with no bounds check. -/
def StreamingBuffer.advance (sb : StreamingBuffer) (amount : Int) : StreamingBuffer :=
  { sb with position := sb.position + amount }

/-- `readUint8()`: `Buffer.readUint8` at the current position (throwing
`ERR_OUT_OF_RANGE` unless `0 ≤ position < length`), then `position++`. -/
def StreamingBuffer.readUint8 (sb : StreamingBuffer) : Except JsError (Nat × StreamingBuffer) :=
  if h : 0 ≤ sb.position ∧ sb.position < (sb.buffer.length : Int) then
    .ok (sb.buffer.get ⟨sb.position.toNat, by omega⟩,
         { sb with position := sb.position + 1 })
  else
    .error .outOfRange

/-- `peakUint8()`: the source's body is identical to `readUint8` — it reads
the byte and then increments the position, despite its doc comment saying
"without advancing". -/
def StreamingBuffer.peakUint8 (sb : StreamingBuffer) : Except JsError (Nat × StreamingBuffer) :=
  if h : 0 ≤ sb.position ∧ sb.position < (sb.buffer.length : Int) then
    .ok (sb.buffer.get ⟨sb.position.toNat, by omega⟩,
         { sb with position := sb.position + 1 })
  else
    .error .outOfRange

/-- `readUInt16LE()`: `Buffer.readUInt16LE` at the current position
(unsigned little-endian, requiring `0 ≤ position` and `position + 2 ≤ length`),
then `position += 2`. -/
def StreamingBuffer.readUInt16LE (sb : StreamingBuffer) : Except JsError (Nat × StreamingBuffer) :=
  if h : 0 ≤ sb.position ∧ sb.position + 2 ≤ (sb.buffer.length : Int) then
    .ok (sb.buffer.get ⟨sb.position.toNat, by omega⟩ +
         sb.buffer.get ⟨sb.position.toNat + 1, by omega⟩ * 256,
         { sb with position := sb.position + 2 })
  else
    .error .outOfRange

/-- The value `Buffer.readInt32LE` computes from four bytes: the unsigned
little-endian value reinterpreted as a signed 32-bit two's-complement
integer. -/
def int32OfLE (b0 b1 b2 b3 : Nat) : Int :=
  let u : Nat := b0 + b1 * 256 + b2 * 65536 + b3 * 16777216
  if u < 2147483648 then (u : Int) else (u : Int) - 4294967296

/-- `readUInt32LE()`: despite its name and doc comment, the source body
calls `Buffer.readInt32LE` (signed little-endian), then `position += 4`. -/
def StreamingBuffer.readUInt32LE (sb : StreamingBuffer) : Except JsError (Int × StreamingBuffer) :=
  if h : 0 ≤ sb.position ∧ sb.position + 4 ≤ (sb.buffer.length : Int) then
    .ok (int32OfLE
           (sb.buffer.get ⟨sb.position.toNat, by omega⟩)
           (sb.buffer.get ⟨sb.position.toNat + 1, by omega⟩)
           (sb.buffer.get ⟨sb.position.toNat + 2, by omega⟩)
           (sb.buffer.get ⟨sb.position.toNat + 3, by omega⟩),
         { sb with position := sb.position + 4 })
  else
    .error .outOfRange

/-- `readChunk(size)` (the `StreamingBuffer` method): `throw 'Not implemented yet'`. -/
def StreamingBuffer.readChunk (_sb : StreamingBuffer) (_size : Int) :
    Except JsError (List Nat × StreamingBuffer) :=
  .error .notImplemented

/-- `readChar()`: `String.fromCharCode(this.readUint8())` — one character,
modelled as its character code. -/
def StreamingBuffer.readChar (sb : StreamingBuffer) : Except JsError (Nat × StreamingBuffer) :=
  sb.readUint8

/-- `peakChar()`: `String.fromCharCode(this.peakUint8())`. -/
def StreamingBuffer.peakChar (sb : StreamingBuffer) : Except JsError (Nat × StreamingBuffer) :=
  sb.peakUint8

/-- The loop of `readString`: `value += this.readChar()` run `n` times. -/
def StreamingBuffer.readStringAux (sb : StreamingBuffer) (n : Nat) (acc : List Nat) :
    Except JsError (List Nat × StreamingBuffer) :=
  match n with
  | 0 => .ok (acc, sb)
  | Nat.succ m =>
    match sb.readChar with
    | .ok (c, sb2) => sb2.readStringAux m (acc ++ [c])
    | .error e => .error e

/-- `readString(length)`: reads `length` characters, appending each to an
initially empty string. -/
def StreamingBuffer.readString (sb : StreamingBuffer) (length : Nat) :
    Except JsError (List Nat × StreamingBuffer) :=
  sb.readStringAux length []

/-- The loop of `peakString`: `value += this.peakChar()` run `n` times.
Since `peakChar` advances (see `peakUint8`), this advances too. -/
def StreamingBuffer.peakStringAux (sb : StreamingBuffer) (n : Nat) (acc : List Nat) :
    Except JsError (List Nat × StreamingBuffer) :=
  match n with
  | 0 => .ok (acc, sb)
  | Nat.succ m =>
    match sb.peakChar with
    | .ok (c, sb2) => sb2.peakStringAux m (acc ++ [c])
    | .error e => .error e

/-- `peakString(length)`: reads `length` characters via `peakChar`. -/
def StreamingBuffer.peakString (sb : StreamingBuffer) (length : Nat) :
    Except JsError (List Nat × StreamingBuffer) :=
  sb.peakStringAux length []

/-- The decoded content of a `fmt ` chunk, the object literal built by
`readFmtChunk`. `none` models a field assigned `undefined` by a false
conditional. `readUInt32LE` values are `Int` because the source's
`readUInt32LE` is signed (see above). -/
structure FmtContent where
  formatCode : Nat
  channels : Nat
  sampleRate : Int
  dataRate : Int
  blockSize : Nat
  bitsPerSample : Nat
  extensionSize : Option Nat
  validBits : Option Nat
  speakerPositionMask : Option Int
  subFormat : Option (List Nat)
  deriving DecidableEq, Repr

/-- The decoded content of a `fact` chunk. -/
structure FactContent where
  samplesPerChannel : Int
  deriving DecidableEq, Repr

/-- The decoded content of a `data` chunk: `samples` and `length` are
quotients of JavaScript numbers; `none` stands for a non-finite result. -/
structure DataContent where
  samples : Option ℚ
  length : Option ℚ
  deriving DecidableEq, Repr

/-- The `content` field of a chunk record returned by the top-level
`readChunk` function. -/
inductive ChunkContent where
  | fmt (content : FmtContent)
  | fact (content : FactContent)
  | data (content : DataContent)
  deriving DecidableEq, Repr

/-- A chunk record `{ chunkId, chunkSize, content }` as returned by the
top-level `readChunk` function for a recognized tag. -/
structure ChunkRec where
  chunkId : List Nat
  chunkSize : Int
  content : ChunkContent
  deriving DecidableEq, Repr

/-- The JavaScript property access `content.channels`: `undefined` (`none`)
unless the content is a `fmt ` content, which is the only content object
with a `channels` field. -/
def ChunkContent.channelsField : ChunkContent → Option Int
  | .fmt f => some (f.channels : Int)
  | _ => none

/-- The JavaScript property access `content.dataRate`: `undefined` (`none`)
unless the content is a `fmt ` content. -/
def ChunkContent.dataRateField : ChunkContent → Option Int
  | .fmt f => some f.dataRate
  | _ => none

/-- JavaScript number division as used by `readDataChunk`, idealized to
exact rationals: dividing by `undefined` gives `NaN` and dividing by `0`
gives `±Infinity`/`NaN`, both modelled as `none`. -/
def jsDivQ (a : Int) (b : Option Int) : Option ℚ :=
  match b with
  | none => none
  | some d => if d = 0 then none else some ((a : ℚ) / (d : ℚ))

/-- The character codes of the tag `'fmt '`. -/
def fmtTag : List Nat := [0x66, 0x6d, 0x74, 0x20]

/-- The character codes of the tag `'fact'`. -/
def factTag : List Nat := [0x66, 0x61, 0x63, 0x74]

/-- The character codes of the tag `'data'`. -/
def dataTag : List Nat := [0x64, 0x61, 0x74, 0x61]

/-- A conditional field initializer of the object literal in
`readFmtChunk`: `cond ? buff.readX() : undefined`. When the condition
holds, the read runs (advancing the buffer) and the field gets its value;
otherwise the field is `undefined` (`none`) and the buffer is untouched. -/
def condRead {α : Type} (c : Prop) [Decidable c]
    (reader : StreamingBuffer → Except JsError (α × StreamingBuffer))
    (buff : StreamingBuffer) : Except JsError (Option α × StreamingBuffer) :=
  if c then
    match reader buff with
    | .ok (v, b) => .ok (some v, b)
    | .error e => .error e
  else .ok (none, buff)

/-- `readFmtChunk(buff, chunkSize)`: the object-literal fields are
evaluated in source order, each read advancing the buffer; the four
extension fields are read only when the declared `chunkSize` passes the
`>= 18` / `>= 40` comparisons. -/
def readFmtChunk (buff : StreamingBuffer) (chunkSize : Int) :
    Except JsError (FmtContent × StreamingBuffer) := do
  let (formatCode, buff) ← buff.readUInt16LE
  let (channels, buff) ← buff.readUInt16LE
  let (sampleRate, buff) ← buff.readUInt32LE
  let (dataRate, buff) ← buff.readUInt32LE
  let (blockSize, buff) ← buff.readUInt16LE
  let (bitsPerSample, buff) ← buff.readUInt16LE
  let (extensionSize, buff) ← condRead (18 ≤ chunkSize) StreamingBuffer.readUInt16LE buff
  let (validBits, buff) ← condRead (40 ≤ chunkSize) StreamingBuffer.readUInt16LE buff
  let (speakerPositionMask, buff) ← condRead (40 ≤ chunkSize) StreamingBuffer.readUInt32LE buff
  let (subFormat, buff) ← condRead (40 ≤ chunkSize) (fun b => b.readString 16) buff
  pure ({ formatCode := formatCode, channels := channels, sampleRate := sampleRate,
          dataRate := dataRate, blockSize := blockSize, bitsPerSample := bitsPerSample,
          extensionSize := extensionSize, validBits := validBits,
          speakerPositionMask := speakerPositionMask, subFormat := subFormat }, buff)

/-- `readFactChunk(buff, chunkSize)`: reads one `readUInt32LE` value; the
`chunkSize` parameter is unused by the body. -/
def readFactChunk (buff : StreamingBuffer) (_chunkSize : Int) :
    Except JsError (FactContent × StreamingBuffer) := do
  let (v, buff) ← buff.readUInt32LE
  pure ({ samplesPerChannel := v }, buff)

/-- `readDataChunk(buff, chunkSize)`: reads nothing from `buff`; it
dereferences the module-level variable `fmtChunk` (parameter `g` here,
`none` for `undefined`, in which case the access `fmtChunk.content` throws
a `TypeError`) and divides the declared size by the stored chunk's
`content.channels` and `content.dataRate`. -/
def readDataChunk (g : Option ChunkRec) (buff : StreamingBuffer) (chunkSize : Int) :
    Except JsError (DataContent × StreamingBuffer) :=
  match g with
  | none => .error .typeError
  | some rec =>
    .ok ({ samples := jsDivQ chunkSize rec.content.channelsField,
           length := jsDivQ chunkSize rec.content.dataRateField }, buff)

/-- The top-level `readChunk(buff)` function: reads a 4-byte tag and a
4-byte (signed, see `readUInt32LE`) size, dispatches on the tag, and for an
unrecognized tag returns `undefined` (`none`) after `buff.advance(chunkSize)`.
`g` is the current value of the module-level `fmtChunk` variable, which the
`data` branch dereferences. -/
def readChunk (g : Option ChunkRec) (buff : StreamingBuffer) :
    Except JsError (Option ChunkRec × StreamingBuffer) := do
  let (chunkId, buff) ← buff.readString 4
  let (chunkSize, buff) ← buff.readUInt32LE
  if chunkId = fmtTag then
    let (content, buff) ← readFmtChunk buff chunkSize
    pure (some { chunkId := chunkId, chunkSize := chunkSize, content := .fmt content }, buff)
  else if chunkId = factTag then
    let (content, buff) ← readFactChunk buff chunkSize
    pure (some { chunkId := chunkId, chunkSize := chunkSize, content := .fact content }, buff)
  else if chunkId = dataTag then
    let (content, buff) ← readDataChunk g buff chunkSize
    pure (some { chunkId := chunkId, chunkSize := chunkSize, content := .data content }, buff)
  else
    pure (none, buff.advance chunkSize)

/-- The local variables of `readFile` after a successful call, together
with the value left in the module-level `fmtChunk` variable and the final
buffer state. -/
structure DecodeState where
  isRIFF : Bool
  chunkSize : Int
  waveID : List Nat
  chunk : Option ChunkRec
  dataChunk : Option ChunkRec
  fmtChunk : Option ChunkRec
  buff : StreamingBuffer
  deriving DecidableEq, Repr

/-- The `isRIFF` computation of `readFile`: four `readUint8` calls compared
against the ASCII codes of `'RIFF'`, combined with JavaScript's
short-circuiting `&&` — a failed comparison skips the remaining reads. -/
def readRIFFMagic (buff : StreamingBuffer) : Except JsError (Bool × StreamingBuffer) := do
  let (b0, buff) ← buff.readUint8
  if b0 = 0x52 then
    let (b1, buff) ← buff.readUint8
    if b1 = 0x49 then
      let (b2, buff) ← buff.readUint8
      if b2 = 0x46 then
        let (b3, buff) ← buff.readUint8
        pure (decide (b3 = 0x46), buff)
      else pure (false, buff)
    else pure (false, buff)
  else pure (false, buff)

/-- The body of the decode portion of `readFile` (the file-system and
stream plumbing that materializes the buffer is outside the core), as a
function of the fresh buffer: evaluates `isRIFF` (see `readRIFFMagic`),
reads the declared file size and the 4-byte wave ID, then calls `readChunk`
exactly twice, assigning the module-level `fmtChunk` variable (incoming
value `g0`) to the first chunk between the two calls. -/
def readFileDecodeBody (g0 : Option ChunkRec) (buff : StreamingBuffer) :
    Except JsError DecodeState := do
  let (isRIFF, buff) ← readRIFFMagic buff
  let (chunkSize, buff) ← buff.readUInt32LE
  let (waveID, buff) ← buff.readString 4
  let (chunk, buff) ← readChunk g0 buff
  let g1 := chunk
  let (dataChunk, buff) ← readChunk g1 buff
  pure { isRIFF := isRIFF, chunkSize := chunkSize, waveID := waveID,
         chunk := chunk, dataChunk := dataChunk, fmtChunk := g1, buff := buff }

/-- The decode portion of `readFile`: constructs the `StreamingBuffer`
(`new StreamingBuffer(buffer)` sets the position to 0) and runs the body. -/
def readFileDecode (g0 : Option ChunkRec) (bytes : List Nat) :
    Except JsError DecodeState :=
  readFileDecodeBody g0 { buffer := bytes, position := 0 }

/-- The cursor invariant claimed by the specification: the position stays
between `0` and the buffer length. -/
def CursorInv (sb : StreamingBuffer) : Prop :=
  0 ≤ sb.position ∧ sb.position ≤ (sb.buffer.length : Int)

instance (sb : StreamingBuffer) : Decidable (CursorInv sb) :=
  inferInstanceAs (Decidable (_ ∧ _))

/-- C1, counterexample: `advance` performs no bounds check, so advancing an
empty buffer by 5 succeeds (no `OutOfBounds` failure) and leaves the
position at 5, strictly beyond the buffer length 0 — the claimed invariant
`position ≤ buffer.length` is violated. -/
theorem C1_advance_cex :
    (StreamingBuffer.advance { buffer := [], position := 0 } 5).position = 5 ∧
    ((StreamingBuffer.advance { buffer := [], position := 0 } 5).buffer.length : Int) = 0 ∧
    ¬ CursorInv (StreamingBuffer.advance { buffer := [], position := 0 } 5) := by
  refine ⟨rfl, rfl, ?_⟩
  decide

/-- C2: `peakUint8` advances. On the one-byte buffer `[7]` at position 0 it
returns the value 7 but moves the position to 1, contradicting its own doc
comment ("without advancing") and the specified non-advancing peek. -/
theorem C2_peakUint8_advances :
    StreamingBuffer.peakUint8 { buffer := [7], position := 0 } =
      .ok (7, { buffer := [7], position := 1 }) := by
  rfl

/-- C8: `readUInt32LE` is signed. On the bytes `FF FF FF FF` it returns
`-1` (the source body calls `Buffer.readInt32LE`), not the unsigned value
`4294967295` claimed; it does advance the position by exactly 4. -/
theorem C8_readUInt32LE_signed :
    StreamingBuffer.readUInt32LE { buffer := [255, 255, 255, 255], position := 0 } =
      .ok (-1, { buffer := [255, 255, 255, 255], position := 4 }) := by
  rfl

/-- An input whose first chunk after the RIFF/WAVE envelope is a `data`
chunk (tag `'data'`, declared size 16) with no preceding `fmt ` chunk. -/
def c4input : List Nat :=
  [0x52, 0x49, 0x46, 0x46, 36, 0, 0, 0, 0x57, 0x41, 0x56, 0x45,
   0x64, 0x61, 0x74, 0x61, 16, 0, 0, 0]

/-- C4, counterexample: decoding an input whose `data` chunk precedes any
`fmt ` chunk fails with the untyped JavaScript `TypeError` thrown by the
property access `fmtChunk.content` on `undefined`, not with a typed
`MissingFormatChunk` error (no such error exists in the code). -/
theorem C4_data_first_typeError_cex :
    readFileDecode none c4input = .error .typeError := by
  rfl

/-- A lone unknown chunk: tag `'JUNK'`, declared size 100, with no payload
bytes at all (8 bytes total, 0 remaining after the header). -/
def c5bytes : List Nat := [0x4A, 0x55, 0x4E, 0x4B, 100, 0, 0, 0]

/-- C5, counterexample: a chunk whose declared size (100) exceeds the bytes
remaining after its header (0) does not make decoding fail with a
`TruncatedChunk` error — `readChunk` succeeds, returns no record, and
silently advances the position to 108, past the 8-byte buffer. -/
theorem C5_no_truncated_chunk_cex :
    readChunk none { buffer := c5bytes, position := 0 } =
      .ok (none, { buffer := c5bytes, position := 108 }) ∧
    (c5bytes.length : Int) < 108 := by
  exact ⟨rfl, by decide⟩

/-- An unknown chunk with an odd declared size: tag `'JUNK'`, size 3, three
payload bytes and one pad byte (12 bytes total). -/
def c7bytes : List Nat := [74, 85, 78, 75, 3, 0, 0, 0, 7, 7, 7, 0]

/-- C7, counterexample: on an unknown chunk of odd declared size 3, the
decoder returns no "unknown chunk" record at all (`readChunk` returns
`undefined`) and leaves the position at 11 = 8 + 3, not at 12 — the pad
byte for the odd size is not skipped. -/
theorem C7_unknown_chunk_cex :
    readChunk none { buffer := c7bytes, position := 0 } =
      .ok (none, { buffer := c7bytes, position := 11 }) ∧
    (11 : Int) ≠ 8 + 3 + 1 := by
  exact ⟨rfl, by decide⟩

/-- A well-formed RIFF/WAVE input containing three complete `fact` chunks
(declared size 4, samples-per-channel 1, 2 and 3) after the 12-byte
envelope; 48 bytes in total. -/
def c3input : List Nat :=
  [0x52, 0x49, 0x46, 0x46, 0, 0, 0, 0, 0x57, 0x41, 0x56, 0x45,
   0x66, 0x61, 0x63, 0x74, 4, 0, 0, 0, 1, 0, 0, 0,
   0x66, 0x61, 0x63, 0x74, 4, 0, 0, 0, 2, 0, 0, 0,
   0x66, 0x61, 0x63, 0x74, 4, 0, 0, 0, 3, 0, 0, 0]

/-- The record of the third `fact` chunk of `c3input`, which the decoder
never reads. -/
def c3third : ChunkRec :=
  { chunkId := factTag, chunkSize := 4, content := .fact { samplesPerChannel := 3 } }

/-- The result of decoding `c3input`: only the first two chunks are
decoded, and the final position is 36, short of the 48-byte buffer. -/
def c3expected : DecodeState :=
  { isRIFF := true, chunkSize := 0, waveID := [0x57, 0x41, 0x56, 0x45],
    chunk := some { chunkId := factTag, chunkSize := 4,
                    content := .fact { samplesPerChannel := 1 } },
    dataChunk := some { chunkId := factTag, chunkSize := 4,
                        content := .fact { samplesPerChannel := 2 } },
    fmtChunk := some { chunkId := factTag, chunkSize := 4,
                       content := .fact { samplesPerChannel := 1 } },
    buff := { buffer := c3input, position := 36 } }

/-- C3, counterexample: on a 48-byte input holding three complete chunks,
decoding succeeds after reading exactly two of them, stopping at position
36 < 48 — the loop does not run until the position reaches the buffer
length, and the third chunk appears nowhere in the output. -/
theorem C3_two_chunks_only_cex :
    readFileDecode none c3input = .ok c3expected ∧
    c3expected.buff.position < (c3expected.buff.buffer.length : Int) ∧
    c3expected.chunk ≠ some c3third ∧ c3expected.dataChunk ≠ some c3third := by
  refine ⟨rfl, by decide, by decide, by decide⟩

/-- A well-formed input `A`: envelope, then a `fmt ` chunk (size 16,
channels 2, data rate 4), then a `fact` chunk. -/
def c9A : List Nat :=
  [0x52, 0x49, 0x46, 0x46, 40, 0, 0, 0, 0x57, 0x41, 0x56, 0x45,
   0x66, 0x6d, 0x74, 0x20, 16, 0, 0, 0,
   1, 0, 2, 0, 1, 0, 0, 0, 4, 0, 0, 0, 4, 0, 16, 0,
   0x66, 0x61, 0x63, 0x74, 4, 0, 0, 0, 0, 0, 0, 0]

/-- An input `B`: envelope, then a `data` chunk (declared size 16), then a
`fact` chunk — `B` contains no `fmt ` chunk. -/
def c9B : List Nat :=
  [0x52, 0x49, 0x46, 0x46, 24, 0, 0, 0, 0x57, 0x41, 0x56, 0x45,
   0x64, 0x61, 0x74, 0x61, 16, 0, 0, 0,
   0x66, 0x61, 0x63, 0x74, 4, 0, 0, 0, 0, 0, 0, 0]

/-- The `fmt ` chunk record decoded from `c9A`, left behind in the
module-level `fmtChunk` variable by decoding `c9A`. -/
def c9fmtRec : ChunkRec :=
  { chunkId := fmtTag, chunkSize := 16,
    content := .fmt { formatCode := 1, channels := 2, sampleRate := 1, dataRate := 4,
                      blockSize := 4, bitsPerSample := 16,
                      extensionSize := none, validBits := none,
                      speakerPositionMask := none, subFormat := none } }

/-- The `fact` chunk record appearing in both `c9A` and `c9B`. -/
def c9factRec : ChunkRec :=
  { chunkId := factTag, chunkSize := 4, content := .fact { samplesPerChannel := 0 } }

/-- The result of decoding `c9A` with the global `fmtChunk` still
`undefined`. -/
def c9Ast : DecodeState :=
  { isRIFF := true, chunkSize := 40, waveID := [0x57, 0x41, 0x56, 0x45],
    chunk := some c9fmtRec, dataChunk := some c9factRec, fmtChunk := some c9fmtRec,
    buff := { buffer := c9A, position := 48 } }

/-- The `data` chunk record decoded from `c9B` when the global holds
`c9fmtRec`: its derived values come from `c9fmtRec`'s channels (2) and
data rate (4), so `samples = 16 / 2` and `length = 16 / 4`. -/
def c9dataRec : ChunkRec :=
  { chunkId := dataTag, chunkSize := 16,
    content := .data { samples := jsDivQ 16 (some 2), length := jsDivQ 16 (some 4) } }

/-- The result of decoding `c9B` when the global `fmtChunk` holds
`c9fmtRec` (as it does right after decoding `c9A`). -/
def c9Bst : DecodeState :=
  { isRIFF := true, chunkSize := 24, waveID := [0x57, 0x41, 0x56, 0x45],
    chunk := some c9dataRec, dataChunk := some c9factRec, fmtChunk := some c9dataRec,
    buff := { buffer := c9B, position := 32 } }

/-- C9, counterexample: decode calls are not independent. Decoding `c9A`
leaves the `fmt ` record in the module-level `fmtChunk` variable; decoding
the very same bytes `c9B` then succeeds, whereas decoding `c9B` without
having decoded `c9A` first throws a `TypeError` — so the result of decoding
a buffer is not a function of that buffer's bytes alone, and decoding
another buffer in between changes the result. -/
theorem C9_shared_global_cex :
    readFileDecode none c9A = .ok c9Ast ∧
    c9Ast.fmtChunk = some c9fmtRec ∧
    readFileDecode none c9B = .error .typeError ∧
    readFileDecode (some c9fmtRec) c9B = .ok c9Bst ∧
    Except.ok c9Bst ≠ (.error .typeError : Except JsError DecodeState) := by
  refine ⟨rfl, rfl, rfl, ?_, by intro h; exact Except.noConfusion h⟩
  rfl

/-- Bind of a success in the `Except JsError` monad. -/
theorem jsBind_ok {α β : Type} (a : α) (f : α → Except JsError β) :
    (Except.ok a >>= f) = f a := rfl

/-- Bind of a failure in the `Except JsError` monad. -/
theorem jsBind_error {α β : Type} (e : JsError) (f : α → Except JsError β) :
    ((Except.error e : Except JsError α) >>= f) = .error e := rfl

/-- Inversion of a successful bind in the `Except JsError` monad. -/
theorem jsBind_eq_ok {α β : Type} {x : Except JsError α} {f : α → Except JsError β} {y : β}
    (h : (x >>= f) = .ok y) : ∃ a, x = .ok a ∧ f a = .ok y := by
  cases x with
  | ok a => exact ⟨a, rfl, h⟩
  | error e => rw [jsBind_error] at h; exact Except.noConfusion h

/-- A successful `readUint8` leaves the position in `[0, length]`. -/
theorem readUint8_ok_inv {sb sb2 : StreamingBuffer} {v : Nat}
    (h : sb.readUint8 = .ok (v, sb2)) : CursorInv sb2 := by
  by_cases hc : 0 ≤ sb.position ∧ sb.position < (sb.buffer.length : Int)
  · rw [StreamingBuffer.readUint8, dif_pos hc] at h
    injection h with h1
    injection h1 with _ hsb
    subst hsb
    exact ⟨by show (0:Int) ≤ sb.position + 1; omega,
           by show sb.position + 1 ≤ (sb.buffer.length : Int); omega⟩
  · rw [StreamingBuffer.readUint8, dif_neg hc] at h
    exact Except.noConfusion h

/-- A successful `peakUint8` leaves the position in `[0, length]`. -/
theorem peakUint8_ok_inv {sb sb2 : StreamingBuffer} {v : Nat}
    (h : sb.peakUint8 = .ok (v, sb2)) : CursorInv sb2 := by
  by_cases hc : 0 ≤ sb.position ∧ sb.position < (sb.buffer.length : Int)
  · rw [StreamingBuffer.peakUint8, dif_pos hc] at h
    injection h with h1
    injection h1 with _ hsb
    subst hsb
    exact ⟨by show (0:Int) ≤ sb.position + 1; omega,
           by show sb.position + 1 ≤ (sb.buffer.length : Int); omega⟩
  · rw [StreamingBuffer.peakUint8, dif_neg hc] at h
    exact Except.noConfusion h

/-- A successful `readUInt16LE` leaves the position in `[0, length]`. -/
theorem readUInt16LE_ok_inv {sb sb2 : StreamingBuffer} {v : Nat}
    (h : sb.readUInt16LE = .ok (v, sb2)) : CursorInv sb2 := by
  by_cases hc : 0 ≤ sb.position ∧ sb.position + 2 ≤ (sb.buffer.length : Int)
  · rw [StreamingBuffer.readUInt16LE, dif_pos hc] at h
    injection h with h1
    injection h1 with _ hsb
    subst hsb
    exact ⟨by show (0:Int) ≤ sb.position + 2; omega,
           by show sb.position + 2 ≤ (sb.buffer.length : Int); omega⟩
  · rw [StreamingBuffer.readUInt16LE, dif_neg hc] at h
    exact Except.noConfusion h

/-- A successful `readUInt32LE` leaves the position in `[0, length]`. -/
theorem readUInt32LE_ok_inv {sb sb2 : StreamingBuffer} {v : Int}
    (h : sb.readUInt32LE = .ok (v, sb2)) : CursorInv sb2 := by
  by_cases hc : 0 ≤ sb.position ∧ sb.position + 4 ≤ (sb.buffer.length : Int)
  · rw [StreamingBuffer.readUInt32LE, dif_pos hc] at h
    injection h with h1
    injection h1 with _ hsb
    subst hsb
    exact ⟨by show (0:Int) ≤ sb.position + 4; omega,
           by show sb.position + 4 ≤ (sb.buffer.length : Int); omega⟩
  · rw [StreamingBuffer.readUInt32LE, dif_neg hc] at h
    exact Except.noConfusion h

/-- One unfolding step of the `readString` loop. -/
theorem readStringAux_succ (sb : StreamingBuffer) (m : Nat) (acc : List Nat) :
    sb.readStringAux (m + 1) acc =
      (match sb.readChar with
       | .ok (c, sb2) => sb2.readStringAux m (acc ++ [c])
       | .error e => .error e) := rfl

/-- A successful `readStringAux` starting from a valid cursor leaves the
position in `[0, length]`. -/
theorem readStringAux_ok_inv {n : Nat} :
    ∀ {sb : StreamingBuffer} {acc s : List Nat} {sb2 : StreamingBuffer},
      CursorInv sb → sb.readStringAux n acc = .ok (s, sb2) → CursorInv sb2 := by
  induction n with
  | zero =>
    intro sb acc s sb2 hInv h
    injection h with h1
    injection h1 with _ hsb
    subst hsb
    exact hInv
  | succ m ih =>
    intro sb acc s sb2 hInv h
    rw [readStringAux_succ] at h
    cases hr : sb.readChar with
    | ok p =>
      obtain ⟨c, sbc⟩ := p
      rw [hr] at h
      exact ih (readUint8_ok_inv hr) h
    | error e =>
      rw [hr] at h
      exact Except.noConfusion h

/-- One unfolding step of the `peakString` loop. -/
theorem peakStringAux_succ (sb : StreamingBuffer) (m : Nat) (acc : List Nat) :
    sb.peakStringAux (m + 1) acc =
      (match sb.peakChar with
       | .ok (c, sb2) => sb2.peakStringAux m (acc ++ [c])
       | .error e => .error e) := rfl

/-- A successful `peakStringAux` starting from a valid cursor leaves the
position in `[0, length]`. -/
theorem peakStringAux_ok_inv {n : Nat} :
    ∀ {sb : StreamingBuffer} {acc s : List Nat} {sb2 : StreamingBuffer},
      CursorInv sb → sb.peakStringAux n acc = .ok (s, sb2) → CursorInv sb2 := by
  induction n with
  | zero =>
    intro sb acc s sb2 hInv h
    injection h with h1
    injection h1 with _ hsb
    subst hsb
    exact hInv
  | succ m ih =>
    intro sb acc s sb2 hInv h
    rw [peakStringAux_succ] at h
    cases hr : sb.peakChar with
    | ok p =>
      obtain ⟨c, sbc⟩ := p
      rw [hr] at h
      exact ih (peakUint8_ok_inv hr) h
    | error e =>
      rw [hr] at h
      exact Except.noConfusion h

/-- C1, amended: the read operations do preserve the invariant
`0 ≤ position ≤ buffer.length` — a read with too few bytes remaining fails
(with Node's untyped `ERR_OUT_OF_RANGE`, the only out-of-bounds error in
the code) before moving the position — but `advance` checks nothing and
can move the position past the buffer length (see the counterexample). -/
theorem C1_reads_preserve_inv (sb : StreamingBuffer) (hInv : CursorInv sb) :
    (∀ v sb2, sb.readUint8 = .ok (v, sb2) → CursorInv sb2) ∧
    (∀ v sb2, sb.peakUint8 = .ok (v, sb2) → CursorInv sb2) ∧
    (∀ v sb2, sb.readUInt16LE = .ok (v, sb2) → CursorInv sb2) ∧
    (∀ v sb2, sb.readUInt32LE = .ok (v, sb2) → CursorInv sb2) ∧
    (∀ v sb2, sb.readChar = .ok (v, sb2) → CursorInv sb2) ∧
    (∀ v sb2, sb.peakChar = .ok (v, sb2) → CursorInv sb2) ∧
    (∀ n s sb2, sb.readString n = .ok (s, sb2) → CursorInv sb2) ∧
    (∀ n s sb2, sb.peakString n = .ok (s, sb2) → CursorInv sb2) := by
  refine ⟨fun v sb2 h => readUint8_ok_inv h,
          fun v sb2 h => peakUint8_ok_inv h,
          fun v sb2 h => readUInt16LE_ok_inv h,
          fun v sb2 h => readUInt32LE_ok_inv h,
          fun v sb2 h => readUint8_ok_inv h,
          fun v sb2 h => peakUint8_ok_inv h,
          fun n s sb2 h => readStringAux_ok_inv hInv h,
          fun n s sb2 h => peakStringAux_ok_inv hInv h⟩

/-- C1, witness: the amended theorem applied to the one-byte buffer `[1]`
at position 0, whose `readUint8` succeeds and yields a valid cursor. -/
theorem C1_witness : CursorInv { buffer := [1], position := 1 } :=
  (C1_reads_preserve_inv { buffer := [1], position := 0 } (by decide)).1 1
    { buffer := [1], position := 1 } rfl

/-- C4, amended: for every input that starts with the RIFF magic, any
declared file size, any 4-byte wave ID, and then a chunk tagged `'data'`
with any declared size, decoding with the module-level `fmtChunk` variable
still `undefined` throws the untyped `TypeError` from dereferencing
`fmtChunk.content` — there is no typed `MissingFormatChunk` error in the
code. -/
theorem C4_data_before_fmt_typeError (s4 s5 s6 s7 w0 w1 w2 w3 z0 z1 z2 z3 : Nat) :
    readFileDecode none
      [0x52, 0x49, 0x46, 0x46, s4, s5, s6, s7, w0, w1, w2, w3,
       0x64, 0x61, 0x74, 0x61, z0, z1, z2, z3] = .error .typeError := by
  rfl

/-- C5, amended: no `TruncatedChunk` error exists. A known chunk whose
declared size exceeds the remaining bytes fails with the untyped Node
`ERR_OUT_OF_RANGE` raised by the first read that would pass the buffer end
(here a `fmt ` header followed by only two bytes, for every declared size
and every global state) — the failing read checks its bounds first and
never touches out-of-range memory — while an unknown chunk whose declared
size exceeds the remaining bytes raises no error at all (see the
counterexample). -/
theorem C5_truncated_known_chunk_outOfRange (z0 z1 z2 z3 b0 b1 : Nat) (g : Option ChunkRec) :
    readChunk g { buffer := [0x66, 0x6d, 0x74, 0x20, z0, z1, z2, z3, b0, b1], position := 0 } =
      .error .outOfRange := by
  rfl

/-- C7, amended: for every chunk whose 4-byte tag is none of `'fmt '`,
`'fact'` and `'data'` and every declared size, `readChunk` returns
`undefined` — no "unknown chunk" record carrying the tag and size is
produced — and advances the cursor by exactly the declared (signed) size
past the 8 header bytes, with no extra pad byte for odd sizes. -/
theorem C7_unknown_chunk_skipped (t0 t1 t2 t3 z0 z1 z2 z3 : Nat) (g : Option ChunkRec)
    (h1 : [t0, t1, t2, t3] ≠ fmtTag) (h2 : [t0, t1, t2, t3] ≠ factTag)
    (h3 : [t0, t1, t2, t3] ≠ dataTag) :
    readChunk g { buffer := [t0, t1, t2, t3, z0, z1, z2, z3], position := 0 } =
      .ok (none, { buffer := [t0, t1, t2, t3, z0, z1, z2, z3],
                   position := 8 + int32OfLE z0 z1 z2 z3 }) := by
  have hs : StreamingBuffer.readString
      { buffer := [t0, t1, t2, t3, z0, z1, z2, z3], position := 0 } 4 =
      .ok ([t0, t1, t2, t3],
           { buffer := [t0, t1, t2, t3, z0, z1, z2, z3], position := 4 }) := rfl
  have hz : StreamingBuffer.readUInt32LE
      { buffer := [t0, t1, t2, t3, z0, z1, z2, z3], position := 4 } =
      .ok (int32OfLE z0 z1 z2 z3,
           { buffer := [t0, t1, t2, t3, z0, z1, z2, z3], position := 8 }) := rfl
  unfold readChunk
  simp only [hs, jsBind_ok, hz, if_neg h1, if_neg h2, if_neg h3]
  rfl

/-- C7, witness: the amended theorem applied to the tag `'WXYZ'` (bytes
87, 88, 89, 90) with declared size 5: the read yields no record and the
position lands at 13 = 8 + 5. -/
theorem C7_witness :
    readChunk none { buffer := [87, 88, 89, 90, 5, 0, 0, 0], position := 0 } =
      .ok (none, { buffer := [87, 88, 89, 90, 5, 0, 0, 0],
                   position := 8 + int32OfLE 5 0 0 0 }) :=
  C7_unknown_chunk_skipped 87 88 89 90 5 0 0 0 none (by decide) (by decide) (by decide)

/-- Inversion of a successful `condRead` whose condition holds: the
underlying read succeeded and the field got `some` of its value. -/
theorem condRead_ok_pos {α : Type} {c : Prop} [Decidable c] (hc : c)
    {reader : StreamingBuffer → Except JsError (α × StreamingBuffer)}
    {buff : StreamingBuffer} {o : Option α} {b2 : StreamingBuffer}
    (h : condRead c reader buff = .ok (o, b2)) :
    ∃ v, reader buff = .ok (v, b2) ∧ o = some v := by
  unfold condRead at h
  rw [if_pos hc] at h
  cases hr : reader buff with
  | ok p =>
    obtain ⟨v, b⟩ := p
    rw [hr] at h
    injection h with h1
    injection h1 with ho hb
    subst hb
    exact ⟨v, rfl, ho.symm⟩
  | error e =>
    rw [hr] at h
    exact Except.noConfusion h

/-- Inversion of a successful `condRead` whose condition fails: the field
is `undefined` and the buffer is untouched. -/
theorem condRead_ok_neg {α : Type} {c : Prop} [Decidable c] (hc : ¬ c)
    {reader : StreamingBuffer → Except JsError (α × StreamingBuffer)}
    {buff : StreamingBuffer} {o : Option α} {b2 : StreamingBuffer}
    (h : condRead c reader buff = .ok (o, b2)) : o = none ∧ b2 = buff := by
  unfold condRead at h
  rw [if_neg hc] at h
  injection h with h1
  injection h1 with ho hb
  exact ⟨ho.symm, hb.symm⟩

/-- A successful `readString` loop returns a string of exactly the
requested length (on top of the accumulator). -/
theorem readStringAux_ok_length {n : Nat} :
    ∀ {sb : StreamingBuffer} {acc s : List Nat} {sb2 : StreamingBuffer},
      sb.readStringAux n acc = .ok (s, sb2) → s.length = acc.length + n := by
  induction n with
  | zero =>
    intro sb acc s sb2 h
    injection h with h1
    injection h1 with hs hsb
    subst hs
    simp
  | succ m ih =>
    intro sb acc s sb2 h
    rw [readStringAux_succ] at h
    cases hr : sb.readChar with
    | ok p =>
      obtain ⟨c, sbc⟩ := p
      rw [hr] at h
      have hlen := ih h
      simp only [List.length_append, List.length_cons, List.length_nil] at hlen
      omega
    | error e =>
      rw [hr] at h
      exact Except.noConfusion h

/-- C6: whenever `readFmtChunk` succeeds, the presence of the extension
fields is determined solely by the declared chunk size — size below 18
yields none of the four extension fields, size in `[18, 40)` yields
`extensionSize` only, and size at least 40 yields `extensionSize`,
`validBits`, `speakerPositionMask`, and the 16-byte `subFormat`. -/
theorem C6_fmt_extension_thresholds (buff : StreamingBuffer) (chunkSize : Int)
    (f : FmtContent) (buff2 : StreamingBuffer)
    (h : readFmtChunk buff chunkSize = .ok (f, buff2)) :
    (chunkSize < 18 →
      f.extensionSize = none ∧ f.validBits = none ∧
      f.speakerPositionMask = none ∧ f.subFormat = none) ∧
    (18 ≤ chunkSize → chunkSize < 40 →
      f.extensionSize.isSome ∧ f.validBits = none ∧
      f.speakerPositionMask = none ∧ f.subFormat = none) ∧
    (40 ≤ chunkSize →
      f.extensionSize.isSome ∧ f.validBits.isSome ∧
      f.speakerPositionMask.isSome ∧
      ∃ l, f.subFormat = some l ∧ l.length = 16) := by
  unfold readFmtChunk at h
  obtain ⟨⟨formatCode, b1⟩, h1, h⟩ := jsBind_eq_ok h
  obtain ⟨⟨channels, b2⟩, h2, h⟩ := jsBind_eq_ok h
  obtain ⟨⟨sampleRate, b3⟩, h3, h⟩ := jsBind_eq_ok h
  obtain ⟨⟨dataRate, b4⟩, h4, h⟩ := jsBind_eq_ok h
  obtain ⟨⟨blockSize, b5⟩, h5, h⟩ := jsBind_eq_ok h
  obtain ⟨⟨bitsPerSample, b6⟩, h6, h⟩ := jsBind_eq_ok h
  obtain ⟨⟨ext, b7⟩, h7, h⟩ := jsBind_eq_ok h
  obtain ⟨⟨vb, b8⟩, h8, h⟩ := jsBind_eq_ok h
  obtain ⟨⟨spm, b9⟩, h9, h⟩ := jsBind_eq_ok h
  obtain ⟨⟨subf, b10⟩, h10, h⟩ := jsBind_eq_ok h
  injection h with hpair
  injection hpair with hf hbuff
  subst hf
  refine ⟨fun hlt => ?_, fun h18 h40 => ?_, fun h40 => ?_⟩
  · obtain ⟨he, -⟩ := condRead_ok_neg (by omega) h7
    obtain ⟨hv, -⟩ := condRead_ok_neg (by omega) h8
    obtain ⟨hsp, -⟩ := condRead_ok_neg (by omega) h9
    obtain ⟨hsf, -⟩ := condRead_ok_neg (by omega) h10
    exact ⟨he ▸ rfl, hv ▸ rfl, hsp ▸ rfl, hsf ▸ rfl⟩
  · obtain ⟨v7, -, he⟩ := condRead_ok_pos h18 h7
    obtain ⟨hv, -⟩ := condRead_ok_neg (by omega) h8
    obtain ⟨hsp, -⟩ := condRead_ok_neg (by omega) h9
    obtain ⟨hsf, -⟩ := condRead_ok_neg (by omega) h10
    exact ⟨by rw [he]; rfl, hv ▸ rfl, hsp ▸ rfl, hsf ▸ rfl⟩
  · obtain ⟨v7, -, he⟩ := condRead_ok_pos (by omega : (18:Int) ≤ chunkSize) h7
    obtain ⟨v8, -, hv⟩ := condRead_ok_pos h40 h8
    obtain ⟨v9, -, hsp⟩ := condRead_ok_pos h40 h9
    obtain ⟨v10, hv10, hsf⟩ := condRead_ok_pos h40 h10
    refine ⟨by rw [he]; rfl, by rw [hv]; rfl, by rw [hsp]; rfl, v10, hsf, ?_⟩
    have := readStringAux_ok_length hv10
    simpa using this

/-- The `fmt ` content decoded from 40 zero bytes with declared size 40. -/
def fmt40content : FmtContent :=
  { formatCode := 0, channels := 0, sampleRate := 0, dataRate := 0,
    blockSize := 0, bitsPerSample := 0,
    extensionSize := some 0, validBits := some 0, speakerPositionMask := some 0,
    subFormat := some (List.replicate 16 0) }

/-- C6, witness: the theorem applied to a 40-byte zero buffer with declared
size 40, which decodes successfully and carries all four extension fields. -/
theorem C6_witness :
    fmt40content.extensionSize.isSome ∧ fmt40content.validBits.isSome ∧
    fmt40content.speakerPositionMask.isSome ∧
    ∃ l, fmt40content.subFormat = some l ∧ l.length = 16 :=
  (C6_fmt_extension_thresholds { buffer := List.replicate 40 0, position := 0 } 40
    fmt40content { buffer := List.replicate 40 0, position := 40 } (by rfl)).2.2
    (by decide)

/-- C10: a successful `readDataChunk` returns the buffer exactly as it
received it (same bytes, same position — the data payload is neither read
nor skipped), and its content is computed from the declared size and the
stored format chunk only: any other buffer yields the same content. -/
theorem C10_readDataChunk_frame (g : Option ChunkRec) (buff : StreamingBuffer)
    (chunkSize : Int) (d : DataContent) (buff2 : StreamingBuffer)
    (h : readDataChunk g buff chunkSize = .ok (d, buff2)) :
    buff2 = buff ∧
    ∀ other : StreamingBuffer,
      (readDataChunk g other chunkSize).map Prod.fst = .ok d := by
  cases g with
  | none => exact Except.noConfusion h
  | some r =>
    unfold readDataChunk at h
    injection h with h1
    injection h1 with hd hb
    subst hd
    exact ⟨hb.symm, fun other => rfl⟩

/-- A stored format chunk used to exercise `readDataChunk` concretely:
channels 2, data rate 4. -/
def c10rec : ChunkRec :=
  { chunkId := fmtTag, chunkSize := 16,
    content := .fmt { formatCode := 1, channels := 2, sampleRate := 8, dataRate := 4,
                      blockSize := 4, bitsPerSample := 16,
                      extensionSize := none, validBits := none,
                      speakerPositionMask := none, subFormat := none } }

/-- The content `readDataChunk` computes for declared size 16 under
`c10rec`: `samples = 16 / 2`, `length = 16 / 4`. -/
def c10content : DataContent :=
  { samples := jsDivQ 16 (some 2), length := jsDivQ 16 (some 4) }

/-- C10, witness: the theorem applied to the buffer `[9]` at position 3
with declared size 16 and stored format `c10rec` — the buffer comes back
unchanged and the content is buffer-independent. -/
theorem C10_witness :
    ({ buffer := [9], position := 3 } : StreamingBuffer) =
      { buffer := [9], position := 3 } ∧
    ∀ other : StreamingBuffer,
      (readDataChunk (some c10rec) other 16).map Prod.fst = .ok c10content :=
  C10_readDataChunk_frame (some c10rec) { buffer := [9], position := 3 } 16
    c10content { buffer := [9], position := 3 } rfl

/-- C9, amended: the decode result is a function of the buffer bytes and
the module-level `fmtChunk` variable, which persists across calls — there
is an input `A` whose decode leaves a global value under which decoding a
second input `B` gives a different result than decoding `B` without having
decoded `A` first. -/
theorem C9_decode_depends_on_global :
    ∃ (A B : List Nat) (stA : DecodeState),
      readFileDecode none A = .ok stA ∧
      readFileDecode stA.fmtChunk B ≠ readFileDecode none B := by
  refine ⟨c9A, c9B, c9Ast, rfl, fun hcontra => ?_⟩
  rw [show readFileDecode c9Ast.fmtChunk c9B = .ok c9Bst from rfl] at hcontra
  rw [show readFileDecode none c9B = (.error .typeError : Except JsError DecodeState)
        from rfl] at hcontra
  exact Except.noConfusion hcontra

/-- Indexing an appended list below the first part's length reads the
first part. -/
theorem get_append_left (b e : List Nat) (i : Nat) (h : i < b.length)
    (h2 : i < (b ++ e).length) : (b ++ e).get ⟨i, h2⟩ = b.get ⟨i, h⟩ := by
  rw [List.get_eq_getElem, List.get_eq_getElem, List.getElem_append_left]

/-- An operation returning a value and a buffer never looks at bytes past
the current end: on success the bytes are unchanged and running the same
operation on the buffer with extra bytes appended succeeds with the same
value and position. -/
def AppendMono {α : Type} (op : StreamingBuffer → Except JsError (α × StreamingBuffer)) : Prop :=
  ∀ (sb : StreamingBuffer) (v : α) (sb2 : StreamingBuffer) (e : List Nat),
    op sb = .ok (v, sb2) →
    sb2.buffer = sb.buffer ∧
    op { buffer := sb.buffer ++ e, position := sb.position } =
      .ok (v, { buffer := sb.buffer ++ e, position := sb2.position })

/-- `readUint8` never examines appended bytes. -/
theorem appendMono_readUint8 : AppendMono StreamingBuffer.readUint8 := by
  intro sb v sb2 e h
  by_cases hc : 0 ≤ sb.position ∧ sb.position < (sb.buffer.length : Int)
  · rw [StreamingBuffer.readUint8, dif_pos hc] at h
    injection h with h1
    injection h1 with hv hsb
    subst hv
    subst hsb
    have hc2 : 0 ≤ sb.position ∧ sb.position < ((sb.buffer ++ e).length : Int) := by
      simp only [List.length_append]
      omega
    have hlt1 : sb.position.toNat < sb.buffer.length := by omega
    have hlt1e : sb.position.toNat < (sb.buffer ++ e).length := by
      simp only [List.length_append]
      omega
    have hget := get_append_left sb.buffer e sb.position.toNat hlt1 hlt1e
    refine ⟨rfl, ?_⟩
    rw [StreamingBuffer.readUint8, dif_pos hc2, hget]
  · rw [StreamingBuffer.readUint8, dif_neg hc] at h
    exact Except.noConfusion h

/-- `readUInt16LE` never examines appended bytes. -/
theorem appendMono_readUInt16LE : AppendMono StreamingBuffer.readUInt16LE := by
  intro sb v sb2 e h
  by_cases hc : 0 ≤ sb.position ∧ sb.position + 2 ≤ (sb.buffer.length : Int)
  · rw [StreamingBuffer.readUInt16LE, dif_pos hc] at h
    injection h with h1
    injection h1 with hv hsb
    subst hv
    subst hsb
    have hc2 : 0 ≤ sb.position ∧ sb.position + 2 ≤ ((sb.buffer ++ e).length : Int) := by
      simp only [List.length_append]
      omega
    have hlt1 : sb.position.toNat < sb.buffer.length := by omega
    have hlt1e : sb.position.toNat < (sb.buffer ++ e).length := by
      simp only [List.length_append]
      omega
    have hlt2 : sb.position.toNat + 1 < sb.buffer.length := by omega
    have hlt2e : sb.position.toNat + 1 < (sb.buffer ++ e).length := by
      simp only [List.length_append]
      omega
    have hget1 := get_append_left sb.buffer e sb.position.toNat hlt1 hlt1e
    have hget2 := get_append_left sb.buffer e (sb.position.toNat + 1) hlt2 hlt2e
    refine ⟨rfl, ?_⟩
    rw [StreamingBuffer.readUInt16LE, dif_pos hc2, hget1, hget2]
  · rw [StreamingBuffer.readUInt16LE, dif_neg hc] at h
    exact Except.noConfusion h

/-- `readUInt32LE` never examines appended bytes. -/
theorem appendMono_readUInt32LE : AppendMono StreamingBuffer.readUInt32LE := by
  intro sb v sb2 e h
  by_cases hc : 0 ≤ sb.position ∧ sb.position + 4 ≤ (sb.buffer.length : Int)
  · rw [StreamingBuffer.readUInt32LE, dif_pos hc] at h
    injection h with h1
    injection h1 with hv hsb
    subst hv
    subst hsb
    have hc2 : 0 ≤ sb.position ∧ sb.position + 4 ≤ ((sb.buffer ++ e).length : Int) := by
      simp only [List.length_append]
      omega
    have hlt1 : sb.position.toNat < sb.buffer.length := by omega
    have hlt1e : sb.position.toNat < (sb.buffer ++ e).length := by
      simp only [List.length_append]
      omega
    have hlt2 : sb.position.toNat + 1 < sb.buffer.length := by omega
    have hlt2e : sb.position.toNat + 1 < (sb.buffer ++ e).length := by
      simp only [List.length_append]
      omega
    have hlt3 : sb.position.toNat + 2 < sb.buffer.length := by omega
    have hlt3e : sb.position.toNat + 2 < (sb.buffer ++ e).length := by
      simp only [List.length_append]
      omega
    have hlt4 : sb.position.toNat + 3 < sb.buffer.length := by omega
    have hlt4e : sb.position.toNat + 3 < (sb.buffer ++ e).length := by
      simp only [List.length_append]
      omega
    have hget1 := get_append_left sb.buffer e sb.position.toNat hlt1 hlt1e
    have hget2 := get_append_left sb.buffer e (sb.position.toNat + 1) hlt2 hlt2e
    have hget3 := get_append_left sb.buffer e (sb.position.toNat + 2) hlt3 hlt3e
    have hget4 := get_append_left sb.buffer e (sb.position.toNat + 3) hlt4 hlt4e
    refine ⟨rfl, ?_⟩
    rw [StreamingBuffer.readUInt32LE, dif_pos hc2, hget1, hget2, hget3, hget4]
  · rw [StreamingBuffer.readUInt32LE, dif_neg hc] at h
    exact Except.noConfusion h

/-- Returning a fixed value leaves appended bytes unexamined. -/
theorem appendMono_pure {α : Type} (x : α) :
    AppendMono (fun sb => (pure (x, sb) : Except JsError (α × StreamingBuffer))) := by
  intro sb v sb2 e h
  injection h with h1
  injection h1 with hv hsb
  subst hv
  subst hsb
  exact ⟨rfl, rfl⟩

/-- Sequencing preserves `AppendMono`. -/
theorem appendMono_bind {α β : Type}
    {op : StreamingBuffer → Except JsError (α × StreamingBuffer)}
    {f : α × StreamingBuffer → Except JsError (β × StreamingBuffer)}
    (h1 : AppendMono op)
    (h2 : ∀ a, AppendMono (fun sb => f (a, sb))) :
    AppendMono (fun sb => op sb >>= f) := by
  intro sb v sb2 e h
  obtain ⟨⟨a, sbm⟩, ha, hf⟩ := jsBind_eq_ok h
  obtain ⟨hb1, ha2⟩ := h1 sb a sbm e ha
  obtain ⟨hb2, hf2⟩ := h2 a sbm v sb2 e hf
  refine ⟨by rw [hb2, hb1], ?_⟩
  show (op { buffer := sb.buffer ++ e, position := sb.position } >>= f) = _
  rw [ha2, jsBind_ok]
  rw [hb1] at hf2
  exact hf2

/-- Branching on a buffer-independent condition preserves `AppendMono`. -/
theorem appendMono_ite {α : Type} {c : Prop} [Decidable c]
    {op1 op2 : StreamingBuffer → Except JsError (α × StreamingBuffer)}
    (h1 : AppendMono op1) (h2 : AppendMono op2) :
    AppendMono (fun sb => if c then op1 sb else op2 sb) := by
  by_cases hc : c
  · simp only [if_pos hc]
    exact h1
  · simp only [if_neg hc]
    exact h2

/-- `condRead` preserves `AppendMono`. -/
theorem appendMono_condRead {α : Type} {c : Prop} [Decidable c]
    {reader : StreamingBuffer → Except JsError (α × StreamingBuffer)}
    (hr : AppendMono reader) :
    AppendMono (fun sb => condRead c reader sb) := by
  by_cases hc : c
  · intro sb v sb2 e h
    simp only [] at h
    obtain ⟨w, hw, hv⟩ := condRead_ok_pos hc h
    subst hv
    obtain ⟨hb, hw2⟩ := hr sb w sb2 e hw
    refine ⟨hb, ?_⟩
    show condRead c reader _ = _
    unfold condRead
    rw [if_pos hc, hw2]
  · intro sb v sb2 e h
    simp only [] at h
    obtain ⟨hv, hb⟩ := condRead_ok_neg hc h
    subst hv
    subst hb
    refine ⟨rfl, ?_⟩
    show condRead c reader _ = _
    unfold condRead
    rw [if_neg hc]

/-- The `readString` loop never examines appended bytes. -/
theorem appendMono_readStringAux (n : Nat) :
    ∀ (acc : List Nat), AppendMono (fun sb => sb.readStringAux n acc) := by
  induction n with
  | zero =>
    intro acc sb v sb2 e h
    injection h with h1
    injection h1 with hv hsb
    subst hv
    subst hsb
    exact ⟨rfl, rfl⟩
  | succ m ih =>
    intro acc sb v sb2 e h
    simp only [] at h
    rw [readStringAux_succ] at h
    cases hr : sb.readChar with
    | error e2 =>
      rw [hr] at h
      exact Except.noConfusion h
    | ok p =>
      obtain ⟨c, sbc⟩ := p
      rw [hr] at h
      obtain ⟨hb1, hr2⟩ := appendMono_readUint8 sb c sbc e hr
      obtain ⟨hb2, h2⟩ := ih (acc ++ [c]) sbc v sb2 e h
      refine ⟨by rw [hb2, hb1], ?_⟩
      show StreamingBuffer.readStringAux _ (m + 1) acc = _
      rw [readStringAux_succ]
      rw [show StreamingBuffer.readChar { buffer := sb.buffer ++ e, position := sb.position } =
            .ok (c, { buffer := sb.buffer ++ e, position := sbc.position }) from hr2]
      rw [hb1] at h2
      exact h2

/-- `readString` never examines appended bytes. -/
theorem appendMono_readString (n : Nat) :
    AppendMono (fun sb => sb.readString n) :=
  appendMono_readStringAux n []

/-- `readFactChunk` never examines appended bytes. -/
theorem appendMono_readFactChunk (cs : Int) :
    AppendMono (fun sb => readFactChunk sb cs) := by
  unfold readFactChunk
  exact appendMono_bind appendMono_readUInt32LE (fun v => appendMono_pure _)

/-- `readDataChunk` never examines appended bytes (it reads none at all). -/
theorem appendMono_readDataChunk (g : Option ChunkRec) (cs : Int) :
    AppendMono (fun sb => readDataChunk g sb cs) := by
  cases g with
  | none =>
    intro sb v sb2 e h
    exact Except.noConfusion h
  | some r =>
    intro sb v sb2 e h
    injection h with h1
    injection h1 with hv hsb
    subst hv
    subst hsb
    exact ⟨rfl, rfl⟩

/-- `readFmtChunk` never examines appended bytes. -/
theorem appendMono_readFmtChunk (cs : Int) :
    AppendMono (fun sb => readFmtChunk sb cs) := by
  unfold readFmtChunk
  refine appendMono_bind appendMono_readUInt16LE (fun formatCode => ?_)
  refine appendMono_bind appendMono_readUInt16LE (fun channels => ?_)
  refine appendMono_bind appendMono_readUInt32LE (fun sampleRate => ?_)
  refine appendMono_bind appendMono_readUInt32LE (fun dataRate => ?_)
  refine appendMono_bind appendMono_readUInt16LE (fun blockSize => ?_)
  refine appendMono_bind appendMono_readUInt16LE (fun bitsPerSample => ?_)
  refine appendMono_bind (appendMono_condRead appendMono_readUInt16LE) (fun ext => ?_)
  refine appendMono_bind (appendMono_condRead appendMono_readUInt16LE) (fun vb => ?_)
  refine appendMono_bind (appendMono_condRead appendMono_readUInt32LE) (fun spm => ?_)
  refine appendMono_bind (appendMono_condRead (appendMono_readString 16)) (fun subf => ?_)
  exact appendMono_pure _

/-- The top-level `readChunk` never examines appended bytes. -/
theorem appendMono_readChunk (g : Option ChunkRec) : AppendMono (readChunk g) := by
  unfold readChunk
  refine appendMono_bind (appendMono_readString 4) (fun chunkId => ?_)
  refine appendMono_bind appendMono_readUInt32LE (fun chunkSize => ?_)
  by_cases h1 : chunkId = fmtTag
  · simp only [if_pos h1]
    exact appendMono_bind (appendMono_readFmtChunk _)
      (fun content => appendMono_pure
        (some { chunkId := chunkId, chunkSize := chunkSize, content := .fmt content }))
  · simp only [if_neg h1]
    by_cases h2 : chunkId = factTag
    · simp only [if_pos h2]
      exact appendMono_bind (appendMono_readFactChunk _)
        (fun content => appendMono_pure
          (some { chunkId := chunkId, chunkSize := chunkSize, content := .fact content }))
    · simp only [if_neg h2]
      by_cases h3 : chunkId = dataTag
      · simp only [if_pos h3]
        exact appendMono_bind (appendMono_readDataChunk g _)
          (fun content => appendMono_pure
            (some { chunkId := chunkId, chunkSize := chunkSize, content := .data content }))
      · simp only [if_neg h3]
        intro sb v sb2 e h
        injection h with hp
        injection hp with hv hsb
        subst hv
        subst hsb
        exact ⟨rfl, rfl⟩

/-- The `isRIFF` computation never examines appended bytes. -/
theorem appendMono_readRIFFMagic : AppendMono readRIFFMagic := by
  unfold readRIFFMagic
  refine appendMono_bind appendMono_readUint8 (fun b0 => ?_)
  refine appendMono_ite ?_ (appendMono_pure false)
  refine appendMono_bind appendMono_readUint8 (fun b1 => ?_)
  refine appendMono_ite ?_ (appendMono_pure false)
  refine appendMono_bind appendMono_readUint8 (fun b2 => ?_)
  refine appendMono_ite ?_ (appendMono_pure false)
  refine appendMono_bind appendMono_readUint8 (fun b3 => ?_)
  exact appendMono_pure _

/-- The `DecodeState`-returning analogue of `AppendMono`. -/
def AppendMonoDS (op : StreamingBuffer → Except JsError DecodeState) : Prop :=
  ∀ (sb : StreamingBuffer) (st : DecodeState) (e : List Nat),
    op sb = .ok st →
    st.buff.buffer = sb.buffer ∧
    op { buffer := sb.buffer ++ e, position := sb.position } =
      .ok { st with buff := { buffer := sb.buffer ++ e, position := st.buff.position } }

/-- Sequencing into a `DecodeState`-returning continuation preserves the
append property. -/
theorem appendMonoDS_bind {α : Type}
    {op : StreamingBuffer → Except JsError (α × StreamingBuffer)}
    {f : α × StreamingBuffer → Except JsError DecodeState}
    (h1 : AppendMono op)
    (h2 : ∀ a, AppendMonoDS (fun sb => f (a, sb))) :
    AppendMonoDS (fun sb => op sb >>= f) := by
  intro sb st e h
  obtain ⟨⟨a, sbm⟩, ha, hf⟩ := jsBind_eq_ok h
  obtain ⟨hb1, ha2⟩ := h1 sb a sbm e ha
  obtain ⟨hb2, hf2⟩ := h2 a sbm st e hf
  refine ⟨by rw [hb2, hb1], ?_⟩
  show (op { buffer := sb.buffer ++ e, position := sb.position } >>= f) = _
  rw [ha2, jsBind_ok]
  rw [hb1] at hf2
  exact hf2

/-- Building the final `DecodeState` leaves appended bytes unexamined. -/
theorem appendMonoDS_pure (i : Bool) (c : Int) (w : List Nat) (ch dc g : Option ChunkRec) :
    AppendMonoDS (fun sb => pure { isRIFF := i, chunkSize := c, waveID := w,
                                   chunk := ch, dataChunk := dc, fmtChunk := g,
                                   buff := sb }) := by
  intro sb st e h
  injection h with h1
  subst h1
  exact ⟨rfl, rfl⟩

/-- The whole decode body never examines appended bytes. -/
theorem appendMonoDS_readFileDecodeBody (g0 : Option ChunkRec) :
    AppendMonoDS (readFileDecodeBody g0) := by
  unfold readFileDecodeBody
  refine appendMonoDS_bind appendMono_readRIFFMagic (fun isRIFF => ?_)
  refine appendMonoDS_bind appendMono_readUInt32LE (fun chunkSize => ?_)
  refine appendMonoDS_bind (appendMono_readString 4) (fun waveID => ?_)
  refine appendMonoDS_bind (appendMono_readChunk g0) (fun chunk => ?_)
  refine appendMonoDS_bind (appendMono_readChunk chunk) (fun dataChunk => ?_)
  exact appendMonoDS_pure _ _ _ _ _ _

/-- C3, amended: after the 12-byte envelope the decoder reads exactly two
chunks and stops, regardless of how many bytes remain: whenever a decode
succeeds, appending arbitrary extra bytes to the input leaves the entire
result unchanged (same chunk records, same final position) — the extra
bytes, and hence any third chunk, are never examined, and no position-
reaches-length termination condition exists. -/
theorem C3_decoder_stops_after_two_chunks (g : Option ChunkRec) (bytes extra : List Nat)
    (st : DecodeState) (h : readFileDecode g bytes = .ok st) :
    st.buff.buffer = bytes ∧
    readFileDecode g (bytes ++ extra) =
      .ok { st with buff := { buffer := bytes ++ extra, position := st.buff.position } } :=
  appendMonoDS_readFileDecodeBody g { buffer := bytes, position := 0 } st extra h

/-- A minimal decodable input: envelope plus two unknown chunks (tags
`'aaaa'` and `'bbbb'`, declared size 0), 28 bytes. -/
def c3min : List Nat :=
  [0x52, 0x49, 0x46, 0x46, 0, 0, 0, 0, 0x57, 0x41, 0x56, 0x45,
   0x61, 0x61, 0x61, 0x61, 0, 0, 0, 0,
   0x62, 0x62, 0x62, 0x62, 0, 0, 0, 0]

/-- The result of decoding `c3min`. -/
def c3minSt : DecodeState :=
  { isRIFF := true, chunkSize := 0, waveID := [0x57, 0x41, 0x56, 0x45],
    chunk := none, dataChunk := none, fmtChunk := none,
    buff := { buffer := c3min, position := 28 } }

/-- C3, witness: the amended theorem applied to the 28-byte input `c3min`
with three extra trailing bytes, which the decoder never examines. -/
theorem C3_witness :
    c3minSt.buff.buffer = c3min ∧
    readFileDecode none (c3min ++ [9, 9, 9]) =
      .ok { c3minSt with
            buff := { buffer := c3min ++ [9, 9, 9], position := c3minSt.buff.position } } :=
  C3_decoder_stops_after_two_chunks none c3min [9, 9, 9] c3minSt rfl
